import Mathlib

/-!
Shallow embedding of two subsystems of a distributed key-value storage node:

* the bulk-ingest engine (`src/import/engine.rs`): the SST writer and the
  approximate range planner over merged size properties;
* the local read path (`src/raftstore/store/worker/read.rs`): read delegates,
  the per-request decision `pre_propose_raft_command`, the lease-checked
  `handle_read`, forwarding with `redirect` / `handle_busy`, and the
  metrics-flush timer.

Byte strings are `List Nat` (one `Nat` per byte), machine counters are `Nat`,
monotonic timestamps (`Timespec`) are `Nat`.  Interior mutability
(`RefCell<Timespec>`) and `&mut` metrics become explicit state passing.
Functions of the repository that live outside the provided source files
(key codec helpers, request header checks, the lease view) are modelled from
the specification and are marked as such in their doc comments.
-/

namespace TikvSpec

/-! ## Range planner (`src/import/engine.rs`, `get_approximate_ranges`) -/

/-- A range boundary key.  `RANGE_MIN` is the empty byte string; `RANGE_MAX`
is a sentinel strictly greater than every user key, so it gets its own
constructor. -/
inductive RKey where
  | key (bytes : List Nat)
  | max
deriving DecidableEq, Repr

/-- `RANGE_MIN`: the empty key, the least range boundary. -/
def RANGE_MIN : RKey := RKey.key []

/-- `RANGE_MAX`: the sentinel strictly greater than any user key. -/
def RANGE_MAX : RKey := RKey.max

/-- One entry of a size-properties index: bytes accumulated since the
previous sample (`size`) and the file offset (`offset`, unused by the
planner). -/
structure IndexHandle where
  offset : Nat
  size : Nat
deriving DecidableEq, Repr

/-- `SizeProperties`: total payload size plus the coarse key index, in
insertion (walk) order; the merged index is not necessarily sorted by key. -/
structure SizeProperties where
  total_size : Nat
  index_handles : List (List Nat × IndexHandle)
deriving DecidableEq, Repr

/-- `RangeInfo { start, end, size }` as produced by the planner. -/
structure RangeInfo where
  start : RKey
  «end» : RKey
  size : Nat
deriving DecidableEq, Repr

/-- The loop body of `get_approximate_ranges`: walk the remaining handles
with the accumulated `size` and the pending range `start`.  On the last
handle the range is always emitted and its end is `RANGE_MAX`; otherwise a
range is emitted exactly when the accumulated size reaches `range_size`,
and its end is the handle's key. -/
def rangesLoop (range_size : Nat) :
    List (List Nat × IndexHandle) → Nat → RKey → List RangeInfo
  | [], _, _ => []
  | [(_, v)], size, start => [⟨start, RANGE_MAX, size + v.size⟩]
  | (k, v) :: e :: rest, size, start =>
    if range_size ≤ size + v.size then
      ⟨start, RKey.key k, size + v.size⟩ :: rangesLoop range_size (e :: rest) 0 (RKey.key k)
    else
      rangesLoop range_size (e :: rest) (size + v.size) start

/-- `get_approximate_ranges(props, max_ranges, min_range_size)`.
`(total_size + max_ranges - 1) / max_ranges` is an unguarded integer
division: `max_ranges = 0` makes the source panic, modelled as `none`. -/
def get_approximate_ranges (props : SizeProperties) (max_ranges min_range_size : Nat) :
    Option (List RangeInfo) :=
  if max_ranges = 0 then
    none
  else
    let range_size := (props.total_size + max_ranges - 1) / max_ranges
    let range_size := Nat.max range_size min_range_size
    some (rangesLoop range_size props.index_handles 0 RANGE_MIN)

/-- `coversFrom s rs` holds when `rs` is a non-empty chain of ranges whose
first `start` is `s`, whose consecutive ranges share their boundary, and
whose last `end` is `RANGE_MAX`. -/
def coversFrom (s : RKey) : List RangeInfo → Bool
  | [] => false
  | [r] => (s == r.start) && (r.«end» == RANGE_MAX)
  | r :: r' :: rest => (s == r.start) && coversFrom r.«end» (r' :: rest)

/-- Sum of the handle sizes of a walk, the amount of payload the planner
distributes over the emitted ranges. -/
def sizesSum (hs : List (List Nat × IndexHandle)) : Nat :=
  (hs.map (fun e => e.2.size)).sum

/-- The interleaved-table scenario's merged index: nine keys `[0] .. [8]`,
each handle carrying 4 MiB, total size 36 MiB. -/
def props_interleaved : SizeProperties :=
  ⟨36 * (1024 * 1024),
   [([0], ⟨0, 4 * (1024 * 1024)⟩), ([1], ⟨0, 4 * (1024 * 1024)⟩),
    ([2], ⟨0, 4 * (1024 * 1024)⟩), ([3], ⟨0, 4 * (1024 * 1024)⟩),
    ([4], ⟨0, 4 * (1024 * 1024)⟩), ([5], ⟨0, 4 * (1024 * 1024)⟩),
    ([6], ⟨0, 4 * (1024 * 1024)⟩), ([7], ⟨0, 4 * (1024 * 1024)⟩),
    ([8], ⟨0, 4 * (1024 * 1024)⟩)]⟩

/-! ## Error kinds surfaced at the subsystem boundaries (spec section 7) -/

inductive ErrorKind where
  | Io
  | Codec
  | CorruptProperties
  | CorruptFile
  | BadOrder
deriving DecidableEq, Repr

/-! ## MVCC key codec (`storage` / `raftstore::store::keys`, outside the
provided sources; modelled from the spec) -/

/-- Modelled from the spec: `SHORT_VALUE_MAX`, the inline threshold for
values stored in the `write` family (implementation-defined, 64). -/
def SHORT_VALUE_MAX : Nat := 64

/-- Modelled from the spec: `is_short_value(v)` iff `len(v) ≤ SHORT_VALUE_MAX`. -/
def is_short_value (v : List Nat) : Bool :=
  v.length ≤ SHORT_VALUE_MAX

/-- Modelled from the spec: `data_key` prepends the one-byte data-region
tag (byte `z` = 122) to a key. -/
def data_key (k : List Nat) : List Nat := 122 :: k

/-- Modelled from the spec: `origin_key` strips the one-byte data-region
tag again, recovering the user-visible key. -/
def origin_key (k : List Nat) : List Nat := k.drop 1

/-- Modelled from the spec: decode the 8-byte big-endian bit-inverted
timestamp suffix. -/
def decode_ts (bs : List Nat) : Nat :=
  bs.foldl (fun a b => a * 256 + (255 - b % 256)) 0

/-- Modelled from the spec: `Key::split_on_ts_for` splits a stored key
`encode(user_key) ∥ ts_suffix(ts)` into the encoded key and the timestamp;
a key too short to carry the 8-byte suffix is a `Codec` failure. -/
def split_on_ts_for (key : List Nat) : Except ErrorKind (List Nat × Nat) :=
  if key.length < 8 then
    .error .Codec
  else
    .ok (key.take (key.length - 8), decode_ts (key.drop (key.length - 8)))

/-! ## MVCC write records (`storage::mvcc::Write`, outside the provided
sources; modelled from the spec) -/

inductive WriteType where
  | Put
  | Delete
  | Lock
  | Rollback
deriving DecidableEq, Repr

/-- Modelled from the spec: the commit record `Write{type, ts, short_value}`
stored in the `write` column family. -/
structure Write where
  write_type : WriteType
  ts : Nat
  short_value : Option (List Nat)
deriving DecidableEq, Repr

def WriteType.flag_byte : WriteType → Nat
  | .Put => 80
  | .Delete => 68
  | .Lock => 76
  | .Rollback => 82

/-- 8-byte big-endian encoding of a 64-bit number. -/
def encode_u64 (n : Nat) : List Nat :=
  (List.range 8).map (fun i => n / 256 ^ (7 - i) % 256)

/-- Modelled from the spec: the canonical serialized MVCC record — a flag
byte, the timestamp, and the optional inlined value. -/
def Write.to_bytes (w : Write) : List Nat :=
  w.write_type.flag_byte :: encode_u64 w.ts ++
    (match w.short_value with
     | none => []
     | some v => v.length % 256 :: v)

/-! ## SST builder (`src/import/engine.rs`, `SSTWriter` / `SSTInfo`) -/

def CF_DEFAULT : String := "default"

def CF_WRITE : String := "write"

/-- `import_sstpb::Range`: a user-visible key range (data tag stripped). -/
structure Range where
  start : List Nat
  «end» : List Nat
deriving DecidableEq, Repr

/-- `SSTInfo { data, range, cf_name }`. -/
structure SSTInfo where
  data : List Nat
  range : Range
  cf_name : String
deriving DecidableEq, Repr

/-- Strict lexicographic order on byte strings, the SST file key order. -/
def bytesLt : List Nat → List Nat → Bool
  | [], [] => false
  | [], _ :: _ => true
  | _ :: _, [] => false
  | a :: as, b :: bs => if a < b then true else if b < a then false else bytesLt as bs

/-- The key of the last entry added to an in-memory sorted-table writer. -/
def lastKey? {α : Type} (l : List (List Nat × α)) : Option (List Nat) :=
  l.getLast?.map (fun e => e.1)

/-- An entry may be added only with a key strictly above every key already
in the writer (the sorted-table writer rejects out-of-order input). -/
def orderOk {α : Type} (l : List (List Nat × α)) (k : List Nat) : Bool :=
  match lastKey? l with
  | none => true
  | some lk => bytesLt lk k

/-- `SSTWriter`: two in-memory sorted-table writers (one per column family)
with an entry counter each.  The `write` family holds MVCC commit records,
the `default` family raw long values. -/
structure SSTWriter where
  default : List (List Nat × List Nat)
  default_entries : Nat
  write : List (List Nat × Write)
  write_entries : Nat
deriving DecidableEq, Repr

/-- A fresh `SSTWriter` (both writers opened and empty). -/
def SSTWriter.new : SSTWriter := ⟨[], 0, [], 0⟩

/-- `SSTWriter::put`.  `&mut self` with `?`-propagation becomes a returned
state plus an optional error; an error after the `write` family was already
mutated keeps that mutation, as in the source. -/
def SSTWriter.put (w : SSTWriter) (key value : List Nat) :
    SSTWriter × Option ErrorKind :=
  let k := data_key key
  match split_on_ts_for key with
  | .error e => (w, some e)
  | .ok (_, commit_ts) =>
    if is_short_value value then
      if orderOk w.write k then
        ({w with write := w.write ++ [(k, ⟨WriteType.Put, commit_ts, some value⟩)],
                 write_entries := w.write_entries + 1}, none)
      else
        (w, some .BadOrder)
    else
      if orderOk w.write k then
        let w1 : SSTWriter :=
          {w with write := w.write ++ [(k, ⟨WriteType.Put, commit_ts, none⟩)],
                  write_entries := w.write_entries + 1}
        if orderOk w1.default k then
          ({w1 with default := w1.default ++ [(k, value)],
                    default_entries := w1.default_entries + 1}, none)
        else
          (w1, some .BadOrder)
      else
        (w, some .BadOrder)

/-- Run a sequence of `put` calls, stopping at the first error. -/
def SSTWriter.putAll (w : SSTWriter) : List (List Nat × List Nat) → SSTWriter × Option ErrorKind
  | [] => (w, none)
  | (k, v) :: rest =>
    match w.put k v with
    | (w', none) => w'.putAll rest
    | (w', some e) => (w', some e)

/-- The bytes of a finished in-memory SST file: its entries in order. -/
def fileData (entries : List (List Nat × List Nat)) : List Nat :=
  (entries.map (fun e => e.1 ++ e.2)).flatten

/-- Smallest emitted key of a writer (entries arrive in increasing order,
so it is the first one). -/
def fileSmallestKey {α : Type} (l : List (List Nat × α)) : List Nat :=
  match l.head? with
  | some e => e.1
  | none => []

/-- Largest emitted key of a writer (the last one). -/
def fileLargestKey {α : Type} (l : List (List Nat × α)) : List Nat :=
  match l.getLast? with
  | some e => e.1
  | none => []

/-- `SSTWriter::finish`: one `SSTInfo` per family with a positive entry
counter, `default` first, then `write`; the range strips the data tag. -/
def SSTWriter.finish (w : SSTWriter) : List SSTInfo :=
  (if 0 < w.default_entries then
    [⟨fileData w.default,
      ⟨origin_key (fileSmallestKey w.default), origin_key (fileLargestKey w.default)⟩,
      CF_DEFAULT⟩]
   else []) ++
  (if 0 < w.write_entries then
    [⟨fileData (w.write.map (fun e => (e.1, e.2.to_bytes))),
      ⟨origin_key (fileSmallestKey w.write), origin_key (fileLargestKey w.write)⟩,
      CF_WRITE⟩]
   else [])

/-- `rocksdb::ExternalSstFileInfo`: what the closed writer reports about
the emitted file. -/
structure ExternalSstFileInfo where
  file_size : Nat
  smallest_key : List Nat
  largest_key : List Nat
deriving DecidableEq, Repr

/-- Outcome of `SSTInfo::new`: either the wrapped file, or the
`assert_eq!(data.len(), info.file_size())` assertion firing, which aborts
the process. -/
inductive SstNewResult where
  | ok (info : SSTInfo)
  | panicked
deriving DecidableEq, Repr

/-- `SSTInfo::new`: read the file back from the in-memory environment
(modelled by passing the file's bytes), assert the reported size, and wrap
it with the user-visible range. -/
def SSTInfo.new (readData : List Nat) (info : ExternalSstFileInfo) (cf_name : String) :
    SstNewResult :=
  if readData.length = info.file_size then
    .ok ⟨readData,
         ⟨origin_key info.smallest_key, origin_key info.largest_key⟩,
         cf_name⟩
  else
    .panicked

/-! ## Local read path (`src/raftstore/store/worker/read.rs`) -/

/-- `metapb::Peer` (the fields the read path consults). -/
structure Peer where
  id : Nat
  store_id : Nat
deriving DecidableEq, Repr

/-- `metapb::RegionEpoch`. -/
structure RegionEpoch where
  conf_ver : Nat
  version : Nat
deriving DecidableEq, Repr

/-- `metapb::Region` (the fields the read path consults). -/
structure Region where
  id : Nat
  region_epoch : RegionEpoch
deriving DecidableEq, Repr

/-- `RaftRequestHeader` (the fields the read path consults). -/
structure RaftRequestHeader where
  region_id : Nat
  peer : Peer
  region_epoch : RegionEpoch
  term : Nat
deriving DecidableEq, Repr

/-- `RaftCmdRequest` as seen by the per-request decision. -/
structure RaftCmdRequest where
  header : RaftRequestHeader
deriving DecidableEq, Repr

/-- Modelled from the spec: lease inspection yields `Valid` or `Expired`. -/
inductive LeaseState where
  | Valid
  | Expired
deriving DecidableEq, Repr

/-- Modelled from the spec: `RemoteLease`, a read-only view
`{ term, expires_at }` of the leader's lease. -/
structure RemoteLease where
  term : Nat
  expires_at : Nat
deriving DecidableEq, Repr

/-- Modelled from the spec: `RemoteLease::inspect(at_time)` is `Valid`
while the inspected time has not passed the expiry. -/
def RemoteLease.inspect (l : RemoteLease) (ts : Nat) : LeaseState :=
  if ts ≤ l.expires_at then .Valid else .Expired

/-- `ReadDelegate`: the per-region cached replica view owned by the local
reader.  `last_valid_ts : RefCell<Timespec>` becomes a plain field updated
by explicit state passing. -/
structure ReadDelegate where
  region : Region
  peer_id : Nat
  term : Nat
  applied_index_term : Nat
  leader_lease : Option RemoteLease
  last_valid_ts : Nat
deriving DecidableEq, Repr

/-- `Progress`: one field mutation for a registered delegate. -/
inductive Progress where
  | Region (region : Region)
  | Term (term : Nat)
  | AppliedIndexTerm (applied_index_term : Nat)
  | LeaderLease (leader_lease : RemoteLease)
deriving DecidableEq, Repr

/-- `ReadDelegate::update`. -/
def ReadDelegate.update (d : ReadDelegate) : Progress → ReadDelegate
  | .Region region => {d with region := region}
  | .Term term => {d with term := term}
  | .AppliedIndexTerm applied_index_term => {d with applied_index_term := applied_index_term}
  | .LeaderLease leader_lease => {d with leader_lease := some leader_lease}

/-- Request-level rejection kinds carried in a response header
(`errorpb`). -/
inductive PbError where
  | StoreNotMatch
  | PeerNotMatch
  | StaleCommand
  | StaleEpoch
  | ServerIsBusy
deriving DecidableEq, Repr

/-- A response header: an optional structured error and the bound term. -/
structure RespHeader where
  error : Option PbError
  current_term : Nat
deriving DecidableEq, Repr

/-- `RaftCmdResponse` (the header is all the read path writes). -/
structure RaftCmdResponse where
  header : RespHeader
deriving DecidableEq, Repr

/-- A region snapshot handed to the read callback. -/
structure RegionSnapshot where
  region : Region
deriving DecidableEq, Repr

/-- `ReadResponse = { response, snapshot }`. -/
structure ReadResponse where
  response : RaftCmdResponse
  snapshot : Option RegionSnapshot
deriving DecidableEq, Repr

/-- Modelled from the spec: `cmd_resp::bind_term` binds a non-zero term
into the response header. -/
def bind_term (resp : RaftCmdResponse) (term : Nat) : RaftCmdResponse :=
  if term = 0 then resp else ⟨⟨resp.header.error, term⟩⟩

/-- Modelled from the spec: `cmd_resp::new_error` shapes a request-level
rejection as a structured error response. -/
def new_error (e : PbError) : RaftCmdResponse := ⟨⟨some e, 0⟩⟩

/-- Modelled from the spec: the snapshot executor shared across one batch —
its monotonic `snapshot_time` and the snapshot read it performs. -/
structure ReadExecutor where
  snapshot_time : Nat
  execute : RaftCmdRequest → Region → ReadResponse

/-- The local rejection counters of `ReadMetrics` (the two histograms are
process metrics out of scope here). -/
structure ReadMetrics where
  rejected_by_store_id_mismatch : Nat
  rejected_by_peer_id_mismatch : Nat
  rejected_by_term_mismatch : Nat
  rejected_by_lease_expire : Nat
  rejected_by_no_region : Nat
  rejected_by_no_lease : Nat
  rejected_by_epoch : Nat
  rejected_by_appiled_term : Nat
  rejected_by_channel_full : Nat
deriving DecidableEq, Repr

/-- `ReadMetrics::default()`: all counters zero. -/
def ReadMetrics.default : ReadMetrics := ⟨0, 0, 0, 0, 0, 0, 0, 0, 0⟩

/-- The rejection categories (the metric labels). -/
inductive RejectReason where
  | store_id_mismatch
  | peer_id_mismatch
  | term_mismatch
  | lease_expire
  | no_region
  | no_lease
  | epoch
  | appiled_term
  | channel_full
deriving DecidableEq, Repr

/-- `+= 1` on exactly the named counter. -/
def ReadMetrics.incr (m : ReadMetrics) : RejectReason → ReadMetrics
  | .store_id_mismatch => {m with rejected_by_store_id_mismatch := m.rejected_by_store_id_mismatch + 1}
  | .peer_id_mismatch => {m with rejected_by_peer_id_mismatch := m.rejected_by_peer_id_mismatch + 1}
  | .term_mismatch => {m with rejected_by_term_mismatch := m.rejected_by_term_mismatch + 1}
  | .lease_expire => {m with rejected_by_lease_expire := m.rejected_by_lease_expire + 1}
  | .no_region => {m with rejected_by_no_region := m.rejected_by_no_region + 1}
  | .no_lease => {m with rejected_by_no_lease := m.rejected_by_no_lease + 1}
  | .epoch => {m with rejected_by_epoch := m.rejected_by_epoch + 1}
  | .appiled_term => {m with rejected_by_appiled_term := m.rejected_by_appiled_term + 1}
  | .channel_full => {m with rejected_by_channel_full := m.rejected_by_channel_full + 1}

/-- `ReadDelegate::handle_read` (source lines 90–122): serve locally only
under a lease whose term matches the delegate's, when the cached
`last_valid_ts` equals the executor's `snapshot_time` (quick path) or the
lease inspects `Valid` at `snapshot_time`; otherwise count the rejection
and yield `None`. -/
def ReadDelegate.handle_read (d : ReadDelegate) (req : RaftCmdRequest)
    (ex : ReadExecutor) (m : ReadMetrics) :
    Option ReadResponse × ReadDelegate × ReadMetrics :=
  match d.leader_lease with
  | some lease =>
    let term := lease.term
    if term = d.term then
      let snapshot_time := ex.snapshot_time
      if d.last_valid_ts == snapshot_time || lease.inspect snapshot_time == LeaseState.Valid then
        let d' := {d with last_valid_ts := snapshot_time}
        let resp := ex.execute req d.region
        (some {resp with response := bind_term resp.response term}, d', m)
      else
        (none, d, m.incr .lease_expire)
    else
      (none, d, m.incr .term_mismatch)
  | none => (none, d, m)

/-- Modelled from the spec: `util::check_store_id` — the header's peer must
carry the reader's store id, else `StoreNotMatch`. -/
def check_store_id (req : RaftCmdRequest) (store_id : Nat) : Except PbError Unit :=
  if req.header.peer.store_id = store_id then .ok () else .error .StoreNotMatch

/-- Modelled from the spec: `util::check_peer_id` — the header's peer must
be the delegate's peer, else `PeerNotMatch`. -/
def check_peer_id (req : RaftCmdRequest) (peer_id : Nat) : Except PbError Unit :=
  if req.header.peer.id = peer_id then .ok () else .error .PeerNotMatch

/-- Modelled from the spec: `util::check_term` — the header's term must
match the delegate's, else `StaleCommand`. -/
def check_term (req : RaftCmdRequest) (term : Nat) : Except PbError Unit :=
  if req.header.term = term then .ok () else .error .StaleCommand

/-- A request epoch is stale when the replica has advanced past it in
either component. -/
def epochStale (reqEpoch regionEpoch : RegionEpoch) : Bool :=
  reqEpoch.version < regionEpoch.version || reqEpoch.conf_ver < regionEpoch.conf_ver

/-- Modelled from the spec: `util::check_region_epoch` — a stale epoch is
rejected. -/
def check_region_epoch (req : RaftCmdRequest) (region : Region) : Except PbError Unit :=
  if epochStale req.header.region_epoch region.region_epoch then .error .StaleEpoch else .ok ()

/-- `RequestPolicy` as far as the local reader is concerned: serve locally
or defer to the consensus layer. -/
inductive RequestPolicy where
  | ReadLocal
  | ReadIndex
deriving DecidableEq, Repr

/-- `Inspector::has_applied_to_current_term` (source lines 455–466). -/
def inspector_has_applied_to_current_term (d : ReadDelegate) (m : ReadMetrics) :
    Bool × ReadMetrics :=
  if d.applied_index_term = d.term then (true, m) else (false, m.incr .appiled_term)

/-- `Inspector::inspect_lease` (source lines 468–478): the real lease check
is postponed to `handle_read`; here only lease presence is tested. -/
def inspector_inspect_lease (d : ReadDelegate) (m : ReadMetrics) :
    LeaseState × ReadMetrics :=
  if d.leader_lease.isSome then (LeaseState.Valid, m)
  else (LeaseState.Expired, m.incr .no_lease)

/-- Modelled from the spec: `RequestInspector::inspect` for a read —
`ReadLocal` only when the delegate applied in its current term and holds a
lease. -/
def inspector_inspect (d : ReadDelegate) (m : ReadMetrics) :
    RequestPolicy × ReadMetrics :=
  match inspector_has_applied_to_current_term d m with
  | (true, m1) =>
    match inspector_inspect_lease d m1 with
    | (LeaseState.Valid, m2) => (.ReadLocal, m2)
    | (LeaseState.Expired, m2) => (.ReadIndex, m2)
  | (false, m1) => (.ReadIndex, m1)

/-- `LocalReader` state: the store id, the delegate registry and the local
metrics (the engine handle and channel are passed where needed). -/
structure LocalReader where
  store_id : Nat
  delegates : List (Nat × ReadDelegate)
  metrics : ReadMetrics
deriving Repr

/-- `LocalReader::pre_propose_raft_command` (source lines 310–369): the
ordered, short-circuiting per-request decision.  `Err` is a structured
rejection, `Ok none` means forward, `Ok (some delegate)` admits the request
to the local read path. -/
def LocalReader.pre_propose_raft_command (r : LocalReader) (req : RaftCmdRequest) :
    Except PbError (Option ReadDelegate) × ReadMetrics :=
  match check_store_id req r.store_id with
  | .error e => (.error e, r.metrics.incr .store_id_mismatch)
  | .ok _ =>
    match r.delegates.lookup req.header.region_id with
    | none => (.ok none, r.metrics.incr .no_region)
    | some delegate =>
      match check_peer_id req delegate.peer_id with
      | .error e => (.error e, r.metrics.incr .peer_id_mismatch)
      | .ok _ =>
        match check_term req delegate.term with
        | .error e => (.error e, r.metrics.incr .term_mismatch)
        | .ok _ =>
          match check_region_epoch req delegate.region with
          | .error _ => (.ok none, r.metrics.incr .epoch)
          | .ok _ =>
            match inspector_inspect delegate r.metrics with
            | (.ReadLocal, m) => (.ok (some delegate), m)
            | (.ReadIndex, m) => (.ok none, m)

/-- What `propose_raft_command` did with the request: answered locally
through the read callback, answered with a structured error response, or
fell through to `redirect` with the original message. -/
inductive ProposeOutcome where
  | localResp (resp : ReadResponse)
  | errorResp (resp : ReadResponse)
  | forwarded (send_time : Nat) (request : RaftCmdRequest)
deriving DecidableEq, Repr

/-- Replace the delegate stored under `id` (the `RefCell` write to
`last_valid_ts` lands in the registry's delegate). -/
def setDelegate (l : List (Nat × ReadDelegate)) (id : Nat) (d : ReadDelegate) :
    List (Nat × ReadDelegate) :=
  l.map (fun e => if e.1 = id then (id, d) else e)

/-- `LocalReader::propose_raft_command` (source lines 372–408): run the
per-request decision; an admitted request is answered locally when
`handle_read` produces a response and forwarded otherwise; a `pre_propose`
forward is forwarded; a structured rejection becomes an error response
with the delegate's term bound when the region is known. -/
def LocalReader.propose_raft_command (r : LocalReader) (request : RaftCmdRequest)
    (send_time : Nat) (ex : ReadExecutor) : ProposeOutcome × LocalReader :=
  let region_id := request.header.region_id
  match r.pre_propose_raft_command request with
  | (.ok (some delegate), m) =>
    match delegate.handle_read request ex m with
    | (some resp, d', m') =>
      (.localResp resp,
       {r with metrics := m', delegates := setDelegate r.delegates region_id d'})
    | (none, d', m') =>
      (.forwarded send_time request,
       {r with metrics := m', delegates := setDelegate r.delegates region_id d'})
  | (.ok none, m) => (.forwarded send_time request, {r with metrics := m})
  | (.error e, m) =>
    let response := new_error e
    let response :=
      match r.delegates.lookup region_id with
      | some delegate => bind_term response delegate.term
      | none => response
    (.errorResp ⟨response, none⟩, {r with metrics := m})

/-! ## Forwarding (`redirect` / `handle_busy`, source lines 231–252 and
296–308) -/

/-- The two `StoreMsg` shapes that reach the local reader. -/
inductive StoreMsg where
  | RaftCmd (send_time : Nat) (request : RaftCmdRequest)
  | BatchRaftSnapCmds (send_time : Nat) (batch : List RaftCmdRequest)
deriving DecidableEq, Repr

/-- Outcome of `Sender::send` on the consensus channel. -/
inductive SendResult where
  | ok
  | full
  | err
deriving DecidableEq, Repr

/-- What `redirect` did: forwarded into the channel, synthesized busy
responses through the message's callback(s), or aborted the process
(`panic!`). -/
inductive RedirectOutcome where
  | sent
  | busy (delivered : List ReadResponse)
  | fatal
deriving DecidableEq, Repr

/-- The synthesized `ServerIsBusy` response: an error header, no
snapshot. -/
def busy_read_response : ReadResponse := ⟨⟨⟨some .ServerIsBusy, 0⟩⟩, none⟩

/-- `handle_busy`: deliver the busy response through the message's
callback — once for a `RaftCmd`, `batch.len()` times through the batch
callback for a `BatchRaftSnapCmds`. -/
def handle_busy : StoreMsg → List ReadResponse
  | .RaftCmd _ _ => [busy_read_response]
  | .BatchRaftSnapCmds _ batch => List.replicate batch.length busy_read_response

/-- `LocalReader::redirect`: send to the consensus channel; a full channel
counts `channel_full` and degrades to `handle_busy`; any other send error
is fatal. -/
def redirect (send : StoreMsg → SendResult) (m : ReadMetrics) (cmd : StoreMsg) :
    RedirectOutcome × ReadMetrics :=
  match send cmd with
  | .ok => (.sent, m)
  | .full => (.busy (handle_busy cmd), m.incr .channel_full)
  | .err => (.fatal, m)

/-! ## Metrics-flush timer (source lines 288–293 and 555–562) -/

/-- `const METRICS_FLUSH_INTERVAL: u64 = 15; // 15s`. -/
def METRICS_FLUSH_INTERVAL : Nat := 15

/-- `Duration::from_millis`, in milliseconds. -/
def duration_from_millis (n : Nat) : Nat := n

/-- `Duration::from_secs`, in milliseconds. -/
def duration_from_secs (n : Nat) : Nat := n * 1000

/-- `LocalReader::new_timer`: the pending task delays (ms) of the fresh
timer — one task, added with `Duration::from_millis(METRICS_FLUSH_INTERVAL)`. -/
def new_timer : List Nat := [duration_from_millis METRICS_FLUSH_INTERVAL]

/-- `RunnableWithTimer::on_timeout`: after flushing, re-arm one task with
`Duration::from_secs(METRICS_FLUSH_INTERVAL)`. -/
def on_timeout_rearm (timer : List Nat) : List Nat :=
  timer ++ [duration_from_secs METRICS_FLUSH_INTERVAL]

/-! ## Concrete states used to exercise the read path -/

/-- A fully serviceable delegate: region 1 at epoch `(1, 3)`, peer 2,
term 6 applied in term 6, holding a lease for term 6. -/
def delegate_ex : ReadDelegate := ⟨⟨1, ⟨1, 3⟩⟩, 2, 6, 6, some ⟨6, 100⟩, 0⟩

/-- A reader on store 2 with `delegate_ex` registered for region 1. -/
def reader_ex : LocalReader := ⟨2, [(1, delegate_ex)], ReadMetrics.default⟩

/-- A reader on store 2 with no registered delegate. -/
def reader_empty : LocalReader := ⟨2, [], ReadMetrics.default⟩

/-- A request matching `delegate_ex` in every header field. -/
def req_pass : RaftCmdRequest := ⟨⟨1, ⟨2, 2⟩, ⟨1, 3⟩, 6⟩⟩

/-- A request whose header peer sits on store 3, not the reader's store. -/
def req_store_mismatch : RaftCmdRequest := ⟨⟨1, ⟨2, 3⟩, ⟨1, 1⟩, 6⟩⟩

/-- An executor whose snapshot time (5) falls inside `delegate_ex`'s lease
and that answers with a snapshot of the read region. -/
def ex0 : ReadExecutor := ⟨5, fun _ reg => ⟨⟨none, 0⟩, some ⟨reg⟩⟩⟩

/-! # Theorems

## Range planner -/

theorem rangesLoop_ne_nil (t : Nat) :
    ∀ (hs : List (List Nat × IndexHandle)) (size : Nat) (start : RKey),
      hs ≠ [] → rangesLoop t hs size start ≠ [] := by
  intro hs
  induction hs with
  | nil => simp
  | cons a rest ih =>
    obtain ⟨k, v⟩ := a
    intro size start _
    cases rest with
    | nil => simp [rangesLoop]
    | cons b rest' =>
      by_cases h : t ≤ size + v.size
      · simp [rangesLoop, h]
      · simpa [rangesLoop, h] using ih (size + v.size) start (by simp)

theorem coversFrom_rangesLoop (t : Nat) :
    ∀ (hs : List (List Nat × IndexHandle)) (size : Nat) (start : RKey),
      hs ≠ [] → coversFrom start (rangesLoop t hs size start) = true := by
  intro hs
  induction hs with
  | nil => simp
  | cons a rest ih =>
    obtain ⟨k, v⟩ := a
    intro size start _
    cases rest with
    | nil => simp [rangesLoop, coversFrom]
    | cons b rest' =>
      by_cases h : t ≤ size + v.size
      · have hne := rangesLoop_ne_nil t (b :: rest') 0 (RKey.key k) (by simp)
        obtain ⟨r, rs, hr⟩ := List.exists_cons_of_ne_nil hne
        have hcov := ih 0 (RKey.key k) (by simp)
        rw [hr] at hcov
        simp [rangesLoop, h, hr, coversFrom, hcov]
      · simpa [rangesLoop, h] using ih (size + v.size) start (by simp)

/-- **C3** (as stated, refuted): over the `SizeProperties` with an empty
index the planner returns the empty list, which is not a cover of
`[RANGE_MIN, RANGE_MAX]` (it has no first or last range). -/
theorem range_cover_fails_on_empty_index :
    get_approximate_ranges ⟨0, []⟩ 1 0 = some [] ∧
      coversFrom RANGE_MIN [] = false := by
  constructor <;> rfl

/-- **C3** (amended: the index walk is non-empty): for every
`SizeProperties` with at least one index handle and every `max_ranges ≥ 1`
and `min_range_size`, `get_approximate_ranges` returns a non-overlapping
contiguous cover of `[RANGE_MIN, RANGE_MAX]`: the first range starts at
`RANGE_MIN`, each range starts where the previous one ends, and the last
range ends at `RANGE_MAX`. -/
theorem get_approximate_ranges_cover (props : SizeProperties)
    (max_ranges min_range_size : Nat) (hk : 1 ≤ max_ranges)
    (hne : props.index_handles ≠ []) :
    ∃ rs, get_approximate_ranges props max_ranges min_range_size = some rs ∧
      coversFrom RANGE_MIN rs = true := by
  have hk0 : max_ranges ≠ 0 := by omega
  unfold get_approximate_ranges
  rw [if_neg hk0]
  exact ⟨_, rfl, coversFrom_rangesLoop _ _ 0 RANGE_MIN hne⟩

/-- Witness for the amended C3 at a one-handle index. -/
theorem get_approximate_ranges_cover_witness :
    ∃ rs, get_approximate_ranges ⟨1, [([0], ⟨0, 1⟩)]⟩ 1 0 = some rs ∧
      coversFrom RANGE_MIN rs = true :=
  get_approximate_ranges_cover ⟨1, [([0], ⟨0, 1⟩)]⟩ 1 0 (by decide) (by decide)

theorem rangesLoop_length_bound (t : Nat) :
    ∀ (hs : List (List Nat × IndexHandle)) (size : Nat) (start : RKey),
      hs ≠ [] → (∀ e ∈ hs, 1 ≤ e.2.size) →
      ((rangesLoop t hs size start).length - 1) * t + 1 ≤ size + sizesSum hs := by
  intro hs
  induction hs with
  | nil => simp
  | cons a rest ih =>
    obtain ⟨k, v⟩ := a
    intro size start _ hpos
    have hv : 1 ≤ v.size := hpos (k, v) (by simp)
    have hpos' : ∀ e ∈ rest, 1 ≤ e.2.size := fun e he => hpos e (by simp [he])
    cases rest with
    | nil =>
      simp only [rangesLoop, List.length_cons, List.length_nil, sizesSum,
        List.map_cons, List.map_nil, List.sum_cons, List.sum_nil]
      omega
    | cons b rest' =>
      have hsum : sizesSum ((k, v) :: b :: rest') = v.size + sizesSum (b :: rest') := by
        simp [sizesSum]
      by_cases h : t ≤ size + v.size
      · have hne' : (b :: rest' : List (List Nat × IndexHandle)) ≠ [] := by simp
        have hL : 0 < (rangesLoop t (b :: rest') 0 (RKey.key k)).length :=
          List.length_pos.mpr (rangesLoop_ne_nil t (b :: rest') 0 (RKey.key k) hne')
        have hIH := ih 0 (RKey.key k) hne' hpos'
        simp only [rangesLoop, if_pos h, List.length_cons, Nat.add_sub_cancel]
        rw [hsum]
        obtain ⟨L', hL'⟩ : ∃ L', (rangesLoop t (b :: rest') 0 (RKey.key k)).length = L' + 1 :=
          ⟨(rangesLoop t (b :: rest') 0 (RKey.key k)).length - 1, by omega⟩
        rw [hL'] at hIH ⊢
        simp only [Nat.add_sub_cancel] at hIH
        have hmul : (L' + 1) * t = L' * t + t := by ring
        rw [hmul]
        -- 0 + sizesSum on the IH side
        simp only [Nat.zero_add] at hIH
        generalize L' * t = A at hIH ⊢
        omega
      · have hIH := ih (size + v.size) start (by simp) hpos'
        simp only [rangesLoop, if_neg h]
        rw [hsum]
        generalize ((rangesLoop t (b :: rest') (size + v.size) start).length - 1) * t = A at hIH ⊢
        omega

theorem le_mul_div_ceil (total k : Nat) (hk : 1 ≤ k) :
    total ≤ k * ((total + k - 1) / k) := by
  have h := Nat.div_add_mod (total + k - 1) k
  have hm : (total + k - 1) % k < k := Nat.mod_lt _ (by omega)
  revert h hm
  generalize (total + k - 1) / k = q
  generalize (total + k - 1) % k = r
  revert q
  intro q
  generalize k * q = A
  intro h hm
  omega

theorem sizesSum_pos (hs : List (List Nat × IndexHandle)) (hne : hs ≠ [])
    (hpos : ∀ e ∈ hs, 1 ≤ e.2.size) : 1 ≤ sizesSum hs := by
  obtain ⟨a, l', rfl⟩ := List.exists_cons_of_ne_nil hne
  have := hpos a (by simp)
  simp only [sizesSum, List.map_cons, List.sum_cons]
  omega

/-- **C4** (as stated, refuted): the output length can be `0` (empty
index) and can exceed `max_ranges` (a trailing zero-size handle forces an
extra range past the target). -/
theorem range_count_fails_on_degenerate_props :
    ((get_approximate_ranges ⟨0, []⟩ 1 0).getD []).length = 0 ∧
    ((get_approximate_ranges ⟨1, [([0], ⟨0, 1⟩), ([1], ⟨0, 0⟩)]⟩ 1 0).getD []).length = 2 := by
  decide

/-- **C4** (amended: the index walk is non-empty, every handle carries at
least one byte, and `total_size` is their sum): with `min_range_size = 0`
and `max_ranges = k ≥ 1`, the output length is at least `1` and at most
`k`. -/
theorem get_approximate_ranges_count (props : SizeProperties) (k : Nat)
    (hk : 1 ≤ k) (hne : props.index_handles ≠ [])
    (hpos : ∀ e ∈ props.index_handles, 1 ≤ e.2.size)
    (htot : props.total_size = sizesSum props.index_handles) :
    ∃ rs, get_approximate_ranges props k 0 = some rs ∧
      1 ≤ rs.length ∧ rs.length ≤ k := by
  have hk0 : k ≠ 0 := by omega
  unfold get_approximate_ranges
  rw [if_neg hk0]
  simp only [Nat.max_zero]
  refine ⟨_, rfl, ?_, ?_⟩
  · exact List.length_pos.mpr
      (rangesLoop_ne_nil ((props.total_size + k - 1) / k) props.index_handles 0 RANGE_MIN hne)
  · set t := (props.total_size + k - 1) / k with ht
    by_contra hgt
    push_neg at hgt
    have h1 : 1 ≤ sizesSum props.index_handles := sizesSum_pos _ hne hpos
    have hbound := rangesLoop_length_bound t props.index_handles 0 RANGE_MIN hne hpos
    have hceil : props.total_size ≤ k * t := le_mul_div_ceil props.total_size k hk
    have hkL : k ≤ (rangesLoop t props.index_handles 0 RANGE_MIN).length - 1 := by omega
    have h3 : k * t ≤ ((rangesLoop t props.index_handles 0 RANGE_MIN).length - 1) * t :=
      Nat.mul_le_mul_right t hkL
    have h4 : ((rangesLoop t props.index_handles 0 RANGE_MIN).length - 1) * t + 1 ≤
        ((rangesLoop t props.index_handles 0 RANGE_MIN).length - 1) * t := by
      calc ((rangesLoop t props.index_handles 0 RANGE_MIN).length - 1) * t + 1
          ≤ 0 + sizesSum props.index_handles := hbound
        _ = props.total_size := by omega
        _ ≤ k * t := hceil
        _ ≤ _ := h3
    exact Nat.not_succ_le_self _ h4

/-- Witness for the amended C4 at the interleaved-table index with
`k = 3`. -/
theorem get_approximate_ranges_count_witness :
    ∃ rs, get_approximate_ranges props_interleaved 3 0 = some rs ∧
      1 ≤ rs.length ∧ rs.length ≤ 3 :=
  get_approximate_ranges_count props_interleaved 3 (by decide) (by decide)
    (by decide) (by decide)

/-- **C7**: on the merged index whose walk is the nine keys `[0] .. [8]`,
each handle carrying 4 MiB (total 36 MiB), `get_approximate_ranges` with
`max_ranges = 4` and `min_range_size = 16 MiB` returns exactly the three
ranges `(RANGE_MIN, [3])`, `([3], [7])`, `([7], RANGE_MAX)` — the
per-range target `max(⌈36 MiB / 4⌉, 16 MiB)` is clamped to
`min_range_size`. -/
theorem approximate_ranges_s3_clamped_by_min_range_size :
    get_approximate_ranges props_interleaved 4 (16 * (1024 * 1024)) =
      some [⟨RANGE_MIN, RKey.key [3], 16 * (1024 * 1024)⟩,
            ⟨RKey.key [3], RKey.key [7], 16 * (1024 * 1024)⟩,
            ⟨RKey.key [7], RANGE_MAX, 4 * (1024 * 1024)⟩] := by
  decide

/-- **C10**: `(total_size + max_ranges - 1) / max_ranges` is an unguarded
division, so `max_ranges ≥ 1` is a precondition: the planner is total for
every `max_ranges ≥ 1` and panics (division by zero, modelled `none`) for
`max_ranges = 0`. -/
theorem get_approximate_ranges_division_precondition :
    (∀ (props : SizeProperties) (min_range_size k : Nat), 1 ≤ k →
      (get_approximate_ranges props k min_range_size).isSome = true) ∧
    (∀ (props : SizeProperties) (min_range_size : Nat),
      get_approximate_ranges props 0 min_range_size = none) := by
  constructor
  · intro props m k hk
    unfold get_approximate_ranges
    rw [if_neg (by omega)]
    rfl
  · intro props m
    rfl

/-- Witness for C10 at a concrete index. -/
theorem get_approximate_ranges_division_precondition_witness :
    (get_approximate_ranges ⟨0, []⟩ 1 0).isSome = true ∧
      get_approximate_ranges ⟨0, []⟩ 0 0 = none :=
  ⟨get_approximate_ranges_division_precondition.1 ⟨0, []⟩ 0 1 (by decide),
   get_approximate_ranges_division_precondition.2 ⟨0, []⟩ 0⟩

/-! ## SST builder -/

theorem put_success_counts (w w' : SSTWriter) (k v : List Nat)
    (h : w.put k v = (w', none)) :
    w'.write_entries = w.write_entries + 1 ∧
    w'.default_entries = w.default_entries + (if is_short_value v then 0 else 1) := by
  simp only [SSTWriter.put] at h
  split at h
  · simp at h
  · split at h
    · split at h
      · obtain ⟨rfl, -⟩ := Prod.mk.injEq .. ▸ h
        simp_all
      · simp at h
    · split at h
      · split at h
        · obtain ⟨rfl, -⟩ := Prod.mk.injEq .. ▸ h
          simp_all
        · simp at h
      · simp at h

theorem putAll_counts (ps : List (List Nat × List Nat)) :
    ∀ (w w' : SSTWriter), w.putAll ps = (w', none) →
      w'.write_entries = w.write_entries + ps.length ∧
      w'.default_entries =
        w.default_entries + ps.countP (fun p => !is_short_value p.2) := by
  induction ps with
  | nil =>
    intro w w' h
    simp only [SSTWriter.putAll] at h
    obtain ⟨rfl, -⟩ := Prod.mk.injEq .. ▸ h
    simp
  | cons p rest ih =>
    obtain ⟨k, v⟩ := p
    intro w w' h
    simp only [SSTWriter.putAll] at h
    rcases hput : w.put k v with ⟨w1, e⟩
    rw [hput] at h
    cases e with
    | none =>
      have hc := put_success_counts w w1 k v hput
      have hcw := hc.1
      have hcd := hc.2
      have hrw := (ih w1 w' h).1
      have hrd := (ih w1 w' h).2
      constructor
      · rw [List.length_cons]
        omega
      · rw [List.countP_cons]
        by_cases his : is_short_value v = true
        · simp only [his, if_true] at hcd
          simp [his]
          omega
        · simp only [Bool.not_eq_true] at his
          simp only [his, Bool.false_eq_true, if_false] at hcd
          simp [his]
          omega
    | some err => simp at h

theorem finish_cf_names (w : SSTWriter) :
    w.finish.map SSTInfo.cf_name =
      (if 0 < w.default_entries then [CF_DEFAULT] else []) ++
      (if 0 < w.write_entries then [CF_WRITE] else []) := by
  unfold SSTWriter.finish
  split_ifs <;> simp

/-- **C5**: each short-value `put` appends exactly one entry, to the
`write` family, with payload `Write{Put, ts, Some(value)}`; each long-value
`put` appends the pointer record `Write{Put, ts, None}` to `write` and the
raw value to `default` at the same data-prefixed key; `finish` returns one
file per non-empty family, `default` first, then `write`, the empty list
when nothing was written — in particular exactly `[write]` when every
value of an in-order sequence was short and exactly `[default, write]`
when some value was long. -/
theorem sst_writer_short_value_placement_and_finish_order :
    (∀ (w : SSTWriter) (key value ek : List Nat) (ts : Nat),
        split_on_ts_for key = .ok (ek, ts) →
        is_short_value value = true →
        orderOk w.write (data_key key) = true →
        w.put key value =
          ({w with write := w.write ++ [(data_key key, ⟨WriteType.Put, ts, some value⟩)],
                   write_entries := w.write_entries + 1}, none)) ∧
    (∀ (w : SSTWriter) (key value ek : List Nat) (ts : Nat),
        split_on_ts_for key = .ok (ek, ts) →
        is_short_value value = false →
        orderOk w.write (data_key key) = true →
        orderOk w.default (data_key key) = true →
        w.put key value =
          ({w with write := w.write ++ [(data_key key, ⟨WriteType.Put, ts, none⟩)],
                   write_entries := w.write_entries + 1,
                   default := w.default ++ [(data_key key, value)],
                   default_entries := w.default_entries + 1}, none)) ∧
    (∀ w : SSTWriter, w.finish.map SSTInfo.cf_name =
      (if 0 < w.default_entries then [CF_DEFAULT] else []) ++
      (if 0 < w.write_entries then [CF_WRITE] else [])) ∧
    (SSTWriter.new.finish = []) ∧
    (∀ (ps : List (List Nat × List Nat)) (w' : SSTWriter),
        ps ≠ [] → SSTWriter.new.putAll ps = (w', none) →
        ((∀ p ∈ ps, is_short_value p.2 = true) →
          w'.finish.map SSTInfo.cf_name = [CF_WRITE]) ∧
        ((∃ p ∈ ps, is_short_value p.2 = false) →
          w'.finish.map SSTInfo.cf_name = [CF_DEFAULT, CF_WRITE])) := by
  refine ⟨?_, ?_, finish_cf_names, rfl, ?_⟩
  · intro w key value ek ts hsplit hshort horder
    simp [SSTWriter.put, hsplit, hshort, horder]
  · intro w key value ek ts hsplit hlong horderw horderd
    simp [SSTWriter.put, hsplit, hlong, horderw, horderd]
  · intro ps w' hne hrun
    have hc := putAll_counts ps SSTWriter.new w' hrun
    simp only [SSTWriter.new] at hc
    constructor
    · intro hshort
      have hcount : ps.countP (fun p => !is_short_value p.2) = 0 := by
        rw [List.countP_eq_zero]
        intro p hp
        simp [hshort p hp]
      have hlen : 0 < ps.length := List.length_pos.mpr hne
      rw [finish_cf_names]
      rw [if_neg (by omega), if_pos (by omega)]
      rfl
    · intro ⟨p, hp, hlong⟩
      have hcount : 0 < ps.countP (fun p => !is_short_value p.2) :=
        List.countP_pos_iff.mpr ⟨p, hp, by simp [hlong]⟩
      have hlen : 0 < ps.length := List.length_pos.mpr hne
      rw [finish_cf_names]
      rw [if_pos (by omega), if_pos (by omega)]
      rfl

/-- Witness for C5: a 9-byte stored key with an all-zero timestamp suffix,
one short put on a fresh writer, and the resulting single-file finish. -/
theorem sst_writer_short_value_placement_witness :
    (SSTWriter.new.put [10, 0, 0, 0, 0, 0, 0, 0, 0] [7] =
      ({SSTWriter.new with
          write := SSTWriter.new.write ++
            [(data_key [10, 0, 0, 0, 0, 0, 0, 0, 0],
              ⟨WriteType.Put, 18446744073709551615, some [7]⟩)],
          write_entries := SSTWriter.new.write_entries + 1}, none)) ∧
    (∀ w' : SSTWriter,
        SSTWriter.new.putAll [([10, 0, 0, 0, 0, 0, 0, 0, 0], [7])] = (w', none) →
        ((∀ p ∈ [([10, 0, 0, 0, 0, 0, 0, 0, 0], [7])], is_short_value p.2 = true) →
          w'.finish.map SSTInfo.cf_name = [CF_WRITE])) :=
  ⟨sst_writer_short_value_placement_and_finish_order.1 SSTWriter.new
      [10, 0, 0, 0, 0, 0, 0, 0, 0] [7] [10] 18446744073709551615
      (by rfl) (by decide) (by decide),
   fun w' hrun =>
    (sst_writer_short_value_placement_and_finish_order.2.2.2.2
      [([10, 0, 0, 0, 0, 0, 0, 0, 0], [7])] w' (by decide) hrun).1⟩

/-- **C8** (as stated, refuted): at a file whose read-back byte length
disagrees with the reported size, `SSTInfo::new` does not return a
recoverable error — the `assert_eq!` fires and the process aborts. -/
theorem sst_info_new_mismatch_aborts :
    SSTInfo.new [0] ⟨2, [122], [122]⟩ CF_DEFAULT = .panicked := by
  decide

/-- **C8** (amended: the size mismatch is detected by an assertion that
aborts, not a returned `CorruptFile` error): `SSTInfo::new` aborts when the
read-back length differs from the reported file size, and succeeds
otherwise with `data` the full contents and `range` the smallest and
largest emitted keys with the data tag stripped. -/
theorem sst_info_new_spec (d : List Nat) (info : ExternalSstFileInfo) (cf : String) :
    (d.length ≠ info.file_size → SSTInfo.new d info cf = .panicked) ∧
    (d.length = info.file_size →
      SSTInfo.new d info cf =
        .ok ⟨d, ⟨origin_key info.smallest_key, origin_key info.largest_key⟩, cf⟩) := by
  constructor <;> intro h <;> simp [SSTInfo.new, h]

/-- Witness for the amended C8 at a mismatched and a matching file. -/
theorem sst_info_new_spec_witness :
    SSTInfo.new [0] ⟨2, [122], [122]⟩ CF_DEFAULT = .panicked ∧
    SSTInfo.new [0, 1] ⟨2, [122, 5], [122, 9]⟩ CF_WRITE =
      .ok ⟨[0, 1], ⟨[5], [9]⟩, CF_WRITE⟩ :=
  ⟨(sst_info_new_spec [0] ⟨2, [122], [122]⟩ CF_DEFAULT).1 (by decide),
   (sst_info_new_spec [0, 1] ⟨2, [122, 5], [122, 9]⟩ CF_WRITE).2 (by decide)⟩

/-! ## Local read path -/

/-- **C1**: `handle_read` yields a locally-served response exactly when the
delegate holds a leader lease whose term equals the delegate's term and
either the cached `last_valid_ts` already equals the executor's
`snapshot_time` or the lease inspects `Valid` at `snapshot_time`; when it
yields `none` for an admitted request the caller forwards the request, and
a local response delivered by `propose_raft_command` is exactly a
`handle_read` response. -/
theorem handle_read_lease_safety :
    (∀ (d : ReadDelegate) (req : RaftCmdRequest) (ex : ReadExecutor) (m : ReadMetrics),
      ((d.handle_read req ex m).1.isSome = true) ↔
        ∃ lease, d.leader_lease = some lease ∧ lease.term = d.term ∧
          (d.last_valid_ts = ex.snapshot_time ∨
            lease.inspect ex.snapshot_time = LeaseState.Valid)) ∧
    (∀ (r : LocalReader) (req : RaftCmdRequest) (st : Nat) (ex : ReadExecutor)
        (d : ReadDelegate) (m : ReadMetrics),
      r.pre_propose_raft_command req = (.ok (some d), m) →
      (d.handle_read req ex m).1 = none →
      (r.propose_raft_command req st ex).1 = .forwarded st req) ∧
    (∀ (r : LocalReader) (req : RaftCmdRequest) (st : Nat) (ex : ReadExecutor)
        (d : ReadDelegate) (m : ReadMetrics) (resp : ReadResponse)
        (d' : ReadDelegate) (m' : ReadMetrics),
      r.pre_propose_raft_command req = (.ok (some d), m) →
      d.handle_read req ex m = (some resp, d', m') →
      (r.propose_raft_command req st ex).1 = .localResp resp) := by
  refine ⟨?_, ?_, ?_⟩
  · intro d req ex m
    cases hl : d.leader_lease with
    | none => simp [ReadDelegate.handle_read, hl]
    | some lease =>
      by_cases ht : lease.term = d.term
      · by_cases hq : d.last_valid_ts = ex.snapshot_time ∨
            lease.inspect ex.snapshot_time = LeaseState.Valid
        · have hb : (d.last_valid_ts == ex.snapshot_time ||
              lease.inspect ex.snapshot_time == LeaseState.Valid) = true := by
            rcases hq with h | h <;> simp [h]
          simp [ReadDelegate.handle_read, hl, ht, hb, hq]
        · have hb : (d.last_valid_ts == ex.snapshot_time ||
              lease.inspect ex.snapshot_time == LeaseState.Valid) = false := by
            push_neg at hq
            simp [hq.1, hq.2]
          simp [ReadDelegate.handle_read, hl, ht, hb]
          push_neg at hq
          exact hq
      · simp [ReadDelegate.handle_read, hl, ht]
  · intro r req st ex d m hpre hnone
    rcases hread : d.handle_read req ex m with ⟨o, d', m'⟩
    rw [hread] at hnone
    simp only at hnone
    subst hnone
    simp [LocalReader.propose_raft_command, hpre, hread]
  · intro r req st ex d m resp d' m' hpre hread
    simp [LocalReader.propose_raft_command, hpre, hread]

/-- Witness for C1: the fully serviceable delegate answers locally with
the snapshot response, its term bound into the header. -/
theorem handle_read_lease_safety_witness :
    (reader_ex.propose_raft_command req_pass 0 ex0).1 =
      .localResp ⟨⟨⟨none, 6⟩⟩, some ⟨⟨1, ⟨1, 3⟩⟩⟩⟩ :=
  handle_read_lease_safety.2.2 reader_ex req_pass 0 ex0 delegate_ex
    ReadMetrics.default ⟨⟨⟨none, 6⟩⟩, some ⟨⟨1, ⟨1, 3⟩⟩⟩⟩
    {delegate_ex with last_valid_ts := 5} ReadMetrics.default
    (by rfl) (by rfl)

/-- **C2**: `pre_propose_raft_command` evaluates the checks in order,
short-circuiting at the first that fires and incrementing exactly that
check's counter: store-id mismatch (`StoreNotMatch`), missing delegate
(forward), peer-id mismatch (`PeerNotMatch`), term mismatch
(`StaleCommand`), stale epoch (forward), stale applied term (forward),
missing lease (forward); only when every check passes is the delegate
returned, with no counter touched. -/
theorem pre_propose_ordered_short_circuit (r : LocalReader) (req : RaftCmdRequest) :
    (req.header.peer.store_id ≠ r.store_id →
      r.pre_propose_raft_command req =
        (.error .StoreNotMatch, r.metrics.incr .store_id_mismatch)) ∧
    (req.header.peer.store_id = r.store_id →
      (r.delegates.lookup req.header.region_id = none →
        r.pre_propose_raft_command req = (.ok none, r.metrics.incr .no_region)) ∧
      (∀ d, r.delegates.lookup req.header.region_id = some d →
        (req.header.peer.id ≠ d.peer_id →
          r.pre_propose_raft_command req =
            (.error .PeerNotMatch, r.metrics.incr .peer_id_mismatch)) ∧
        (req.header.peer.id = d.peer_id →
          (req.header.term ≠ d.term →
            r.pre_propose_raft_command req =
              (.error .StaleCommand, r.metrics.incr .term_mismatch)) ∧
          (req.header.term = d.term →
            (epochStale req.header.region_epoch d.region.region_epoch = true →
              r.pre_propose_raft_command req = (.ok none, r.metrics.incr .epoch)) ∧
            (epochStale req.header.region_epoch d.region.region_epoch = false →
              (d.applied_index_term ≠ d.term →
                r.pre_propose_raft_command req =
                  (.ok none, r.metrics.incr .appiled_term)) ∧
              (d.applied_index_term = d.term →
                (d.leader_lease = none →
                  r.pre_propose_raft_command req =
                    (.ok none, r.metrics.incr .no_lease)) ∧
                (d.leader_lease.isSome = true →
                  r.pre_propose_raft_command req =
                    (.ok (some d), r.metrics)))))))) := by
  constructor
  · intro h1
    simp [LocalReader.pre_propose_raft_command, check_store_id, h1]
  · intro h1
    constructor
    · intro h2
      simp [LocalReader.pre_propose_raft_command, check_store_id, h1, h2]
    · intro d hd
      constructor
      · intro h3
        simp [LocalReader.pre_propose_raft_command, check_store_id, check_peer_id,
          h1, hd, h3]
      · intro h3
        constructor
        · intro h4
          simp [LocalReader.pre_propose_raft_command, check_store_id, check_peer_id,
            check_term, h1, hd, h3, h4]
        · intro h4
          constructor
          · intro h5
            simp [LocalReader.pre_propose_raft_command, check_store_id, check_peer_id,
              check_term, check_region_epoch, h1, hd, h3, h4, h5]
          · intro h5
            constructor
            · intro h6
              simp [LocalReader.pre_propose_raft_command, check_store_id, check_peer_id,
                check_term, check_region_epoch, inspector_inspect,
                inspector_has_applied_to_current_term, h1, hd, h3, h4, h5, h6]
            · intro h6
              constructor
              · intro h7
                simp [LocalReader.pre_propose_raft_command, check_store_id, check_peer_id,
                  check_term, check_region_epoch, inspector_inspect,
                  inspector_has_applied_to_current_term, inspector_inspect_lease,
                  h1, hd, h3, h4, h5, h6, h7]
              · intro h7
                simp [LocalReader.pre_propose_raft_command, check_store_id, check_peer_id,
                  check_term, check_region_epoch, inspector_inspect,
                  inspector_has_applied_to_current_term, inspector_inspect_lease,
                  h1, hd, h3, h4, h5, h6, h7]

/-- Witness for C2: a store-id mismatch rejection, and a fully passing
request that is admitted with untouched metrics. -/
theorem pre_propose_ordered_short_circuit_witness :
    (reader_empty.pre_propose_raft_command req_store_mismatch =
      (.error .StoreNotMatch, ReadMetrics.default.incr .store_id_mismatch)) ∧
    (reader_ex.pre_propose_raft_command req_pass =
      (.ok (some delegate_ex), ReadMetrics.default)) :=
  ⟨(pre_propose_ordered_short_circuit reader_empty req_store_mismatch).1 (by decide),
   (((((((pre_propose_ordered_short_circuit reader_ex req_pass).2
      (by decide)).2 delegate_ex (by rfl)).2 (by decide)).2
      (by decide)).2 (by decide)).2 (by decide)).2 (by rfl)⟩

/-- **C6**: when the consensus channel reports `Full`, `redirect`
increments `channel_full` exactly once and delivers a `ServerIsBusy`
response (no snapshot) through the message's callback — once for a
`RaftCmd`, `batch.len()` times for a `BatchRaftSnapCmds`; a successful send
synthesizes nothing, and any other send error aborts the process. -/
theorem redirect_full_channel_degradation (send : StoreMsg → SendResult)
    (m : ReadMetrics) (cmd : StoreMsg) :
    (send cmd = .full →
      redirect send m cmd = (.busy (handle_busy cmd), m.incr .channel_full) ∧
      (handle_busy cmd).length =
        (match cmd with
         | .RaftCmd _ _ => 1
         | .BatchRaftSnapCmds _ batch => batch.length) ∧
      ∀ resp ∈ handle_busy cmd,
        resp.response.header.error = some .ServerIsBusy ∧ resp.snapshot = none) ∧
    (send cmd = .ok → redirect send m cmd = (.sent, m)) ∧
    (send cmd = .err → redirect send m cmd = (.fatal, m)) := by
  refine ⟨?_, ?_, ?_⟩
  · intro h
    refine ⟨by simp [redirect, h], ?_, ?_⟩
    · cases cmd <;> simp [handle_busy]
    · intro resp hresp
      cases cmd with
      | RaftCmd st req =>
        simp [handle_busy] at hresp
        simp [hresp, busy_read_response]
      | BatchRaftSnapCmds st batch =>
        simp [handle_busy] at hresp
        simp [hresp.2, busy_read_response]
  · intro h
    simp [redirect, h]
  · intro h
    simp [redirect, h]

/-- Witness for C6: a full channel with a single-command message. -/
theorem redirect_full_channel_degradation_witness :
    redirect (fun _ => SendResult.full) ReadMetrics.default
        (StoreMsg.RaftCmd 0 req_pass) =
      (.busy (handle_busy (StoreMsg.RaftCmd 0 req_pass)),
       ReadMetrics.default.incr .channel_full) :=
  ((redirect_full_channel_degradation (fun _ => SendResult.full) ReadMetrics.default
    (StoreMsg.RaftCmd 0 req_pass)).1 (by rfl)).1

/-- **C9** (divergence): the constant is documented as 15 s and the
re-armed task in `on_timeout` is indeed scheduled 15 s (= 15000 ms) ahead,
but the initial task added by `new_timer` uses `Duration::from_millis`, so
it fires after 15 ms, not 15 s. -/
theorem metrics_flush_initial_delay_divergence :
    new_timer = [duration_from_millis METRICS_FLUSH_INTERVAL] ∧
    duration_from_millis METRICS_FLUSH_INTERVAL = 15 ∧
    on_timeout_rearm [] = [duration_from_secs METRICS_FLUSH_INTERVAL] ∧
    duration_from_secs METRICS_FLUSH_INTERVAL = 15000 ∧
    duration_from_millis METRICS_FLUSH_INTERVAL ≠
      duration_from_secs METRICS_FLUSH_INTERVAL :=
  ⟨rfl, rfl, rfl, rfl, by decide⟩

end TikvSpec
